import Mathlib

/-!
Verification of the portfolio-tracker repository's freshness-aware cache and
sliding-window rate limiter.

Shallow embedding of:
- `src/rate_limiter.py` (`rate_limited` decorator, the `wrapper` body is the
  `Acquire()` step);
- `src/cache_manager.py` (`CacheManager.is_data_up_to_date`,
  `load_cached_data`, `save_to_cache`, `get_latest_trading_day`);
- `src/market_holidays.py` (`USMarketHolidayCalendar` Thanksgiving and
  "Day after Thanksgiving" rules, `fourth_friday_november`).

Modelling conventions:
- `time.time()` values are integers (clock ticks at the finest granularity
  in play; the limiter's arithmetic is granularity-independent), and
  `time.sleep(x)` advances the clock by exactly `x`.
- Calendar dates are integers counting days since 1970-01-01, so
  `weekday d = (d + 3) % 7` with the Python convention Monday = 0.
- A Python `datetime` is a day number plus a time-of-day component `tod`
  (0 = midnight); `pd.DateOffset(days=k)` subtraction keeps `tod`.
- Parsed pandas date series (`pd.to_datetime(..., errors="coerce")`) are
  `List (Option ℤ)`, `none` standing for `NaT`.
- The `diskcache` store is a map from keys to stored values; values that are
  not DataFrames get the constructor `notFrame`.
-/

namespace PortfolioTracker

/-! ### Rate limiter (src/rate_limiter.py) -/

/-- `interval = 60.0  # seconds per minute` in `rate_limited`. -/
def interval : ℤ := 60

/-- `call_timestamps = [t for t in call_timestamps if now - t < interval]`. -/
def prune (ts : List ℤ) (now : ℤ) : List ℤ :=
  ts.filter fun t => decide (now - t < interval)

/-- Result of one `wrapper` run: the updated `call_timestamps` list and the
clock value when the call was admitted. -/
structure AcqResult where
  ts : List ℤ
  now : ℤ
  deriving DecidableEq

/-- One run of `wrapper` in `rate_limited(maxCalls)`: prune, then either admit
immediately or sleep until the oldest timestamp leaves the window, re-prune,
and record. Returns `none` where Python raises `IndexError`: when the pruned
list is empty yet its length already reaches `maxCalls` (only possible for
`maxCalls = 0`), `call_timestamps[0]` faults. -/
def acquire (maxCalls : ℕ) (ts : List ℤ) (now : ℤ) : Option AcqResult :=
  let ts1 := prune ts now
  if maxCalls ≤ ts1.length then
    match ts1 with
    | [] => none
    | t0 :: _ =>
      let sleepTime := interval - (now - t0)
      let now2 := now + sleepTime
      let ts2 := prune ts1 now2
      some ⟨ts2 ++ [now2], now2⟩
  else
    some ⟨ts1 ++ [now], now⟩

/-- Number of recorded timestamps inside the trailing 60-second window
`(t - 60, t]` at instant `t`. -/
def windowCount (ts : List ℤ) (t : ℤ) : ℕ :=
  (ts.filter fun x => decide (t - interval < x) && decide (x ≤ t)).length

/-- State invariant of the limiter between calls: the stored timestamp list is
sorted, contains no timestamp later than the current clock, and has at most
`maxCalls` entries. It holds for the initial empty list. -/
def RLInv (maxCalls : ℕ) (ts : List ℤ) (now : ℤ) : Prop :=
  ts.Sorted (· ≤ ·) ∧ (∀ t ∈ ts, t ≤ now) ∧ ts.length ≤ maxCalls

/-! ### Cache store (src/cache_manager.py) -/

/-- A cached `pd.DataFrame`, reduced to the parts `is_data_up_to_date` reads:
the parsed `date` column (when `'date' in cached_data.columns`), the parsed
index, and whether `cached_data.empty` holds. `none` entries are `NaT`. -/
structure Frame where
  dateCol : Option (List (Option ℤ))
  index : List (Option ℤ)
  isEmpty : Bool
  deriving DecidableEq

/-- A value held by the `diskcache` store under some key: either a DataFrame
or some other pickled object (which `load_cached_data`'s `isinstance` check
rejects). -/
inductive CacheValue where
  | notFrame : CacheValue
  | frame : Frame → CacheValue
  deriving DecidableEq

/-- The key → value map backing `self.cache`. -/
def Store : Type := String → Option CacheValue

/-- `CacheManager.load_cached_data`: `cache.get(key)` followed by
`isinstance(cached_data, pd.DataFrame) and not cached_data.empty`. -/
def load_cached_data (store : Store) (key : String) : Option Frame :=
  match store key with
  | some (CacheValue.frame f) => if f.isEmpty then none else some f
  | _ => none

/-- `CacheManager.save_to_cache`: `self.cache.set(cache_key, data)`. -/
def save_to_cache (store : Store) (key : String) (f : Frame) : Store :=
  fun k => if k = key then some (CacheValue.frame f) else store k

/-- Maximum of a list of integers, `none` on the empty list. -/
def listMax : List ℤ → Option ℤ
  | [] => none
  | x :: xs =>
    match listMax xs with
    | none => some x
    | some m => some (max x m)

/-- `series.max()` on a parsed datetime series: pandas skips `NaT` entries and
yields `NaT` (here `none`) when no valid date remains. -/
def maxValidDate (ds : List (Option ℤ)) : Option ℤ :=
  listMax (ds.filterMap id)

/-- The series `is_data_up_to_date` takes the max of: the `date` column when
present, otherwise the index. -/
def effectiveDates (f : Frame) : List (Option ℤ) :=
  match f.dateCol with
  | some c => c
  | none => f.index

/-- The newest observation date of a cached entry (`max_cached_date` after the
`.date()` conversion), `none` when no date parses. -/
def maxObservedDate (f : Frame) : Option ℤ :=
  maxValidDate (effectiveDates f)

/-- `CacheManager.is_data_up_to_date`. `latest` is the value of
`self.get_latest_trading_day().date()` at the check time. The Python branches
"no cached data", "max is NaT" and "max is not a Timestamp" all return
`False`; here they are the `none` cases. The whole body sits in a
`try/except` that returns `False`, so the function is total. -/
def is_data_up_to_date (store : Store) (key : String) (latest : ℤ) : Bool :=
  match load_cached_data store key with
  | none => false
  | some f =>
    match maxObservedDate f with
    | none => false
    | some d => if d < latest then false else true

/-! ### Trading calendar (src/cache_manager.py, get_latest_trading_day) -/

/-- Python `datetime.weekday()` on a day number counted from 1970-01-01
(a Thursday): Monday = 0, ..., Sunday = 6. -/
def weekday (d : ℤ) : ℤ :=
  (d + 3) % 7

/-- A Python `datetime`: a calendar day plus the time-of-day (`tod`, in
microseconds since midnight; only `tod = 0` means midnight). `datetime.today()`
carries the current wall-clock time, and `pd.DateOffset(days=k)` arithmetic
keeps `tod` unchanged. -/
structure PyDateTime where
  day : ℤ
  tod : ℕ
  deriving DecidableEq

/-- `potential_trading_day in holidays`: the holiday `DatetimeIndex` holds
midnight timestamps, so membership requires the candidate's time-of-day to be
exactly midnight and its day to be a holiday. -/
def inHolidays (hs : List ℤ) (dt : PyDateTime) : Bool :=
  decide (dt.tod = 0) && decide (dt.day ∈ hs)

/-- The `while` guard of `get_latest_trading_day`:
`potential_trading_day in holidays or potential_trading_day.weekday() >= 5`. -/
def tradingGuard (hs : List ℤ) (dt : PyDateTime) : Bool :=
  inHolidays hs dt || decide (5 ≤ weekday dt.day)

/-- The rollback `while` loop, run on explicit fuel (`none` = fuel exhausted;
the loop itself has no bound, so termination is proved separately). Each
iteration is `potential_trading_day -= pd.DateOffset(days=1)`. -/
def rollback (hs : List ℤ) : ℕ → PyDateTime → Option PyDateTime
  | 0, _ => none
  | fuel + 1, dt =>
    if tradingGuard hs dt then rollback hs fuel ⟨dt.day - 1, dt.tod⟩
    else some dt

/-- `CacheManager.get_latest_trading_day`, parameterized by the holiday list
`hs` the selected market calendar returns for the one-year window, the current
`datetime.today()` value, and loop fuel. The weekend pre-adjustment is
`today - pd.DateOffset(days=today.weekday() - 4)`. -/
def get_latest_trading_day (hs : List ℤ) (today : PyDateTime) (fuel : ℕ) :
    Option PyDateTime :=
  let potential :=
    if weekday today.day < 5 then today
    else ⟨today.day - (weekday today.day - 4), today.tod⟩
  rollback hs fuel potential

/-! ### US holiday rules (src/market_holidays.py) -/

/-- Day number (days since 1970-01-01) of the Gregorian date y-m-d, for
positive years; the standard civil-from-days era computation. -/
def daysFromCivil (y m d : ℕ) : ℤ :=
  let y1 := if m ≤ 2 then y - 1 else y
  let era := y1 / 400
  let yoe := y1 - era * 400
  let doy := (153 * (if 2 < m then m - 3 else m + 9) + 2) / 5 + d - 1
  let doe := yoe * 365 + yoe / 4 - yoe / 100 + doy
  (era * 146097 + doe : ℤ) - 719468

/-- `dateutil.relativedelta(weekday=w)` as pandas `DateOffset(weekday=w)`
applies it: move forward to the next day whose weekday is `w`, staying put if
the day already has weekday `w`. -/
def nextWeekdayOnOrAfter (w d : ℤ) : ℤ :=
  d + (w - weekday d) % 7

/-- The code's rule `Holiday("Thanksgiving", month=11, day=1,
offset=DateOffset(weekday=3))`: the first Thursday on or after November 1. -/
def thanksgivingRule (y : ℕ) : ℤ :=
  nextWeekdayOnOrAfter 3 (daysFromCivil y 11 1)

/-- `fourth_friday_november`: `Timestamp(y, 11, 1) + DateOffset(weekday=4,
weeks=3)` — relativedelta adds the 21 days first, then rolls to the next
Friday on or after, which is the fourth Friday of November. This is the
observance of `Holiday("Day after Thanksgiving", ...)` applied to Nov 1. -/
def fourth_friday_november (y : ℕ) : ℤ :=
  nextWeekdayOnOrAfter 4 (daysFromCivil y 11 1 + 21)

/-- The spec's Thanksgiving: the fourth Thursday of November (first Thursday
on or after November 22). -/
def fourthThursdayNovember (y : ℕ) : ℤ :=
  nextWeekdayOnOrAfter 3 (daysFromCivil y 11 1 + 21)

/-! ### Claim propositions and concrete witness data -/

/-- The state of `call_timestamps` right after `rate_limited` returns the
decorator: the constructor runs no validation of `max_requests_per_minute`
and installs the empty list. -/
def initial_call_timestamps : List ℤ := []

/-- The degenerate cached payloads the spec enumerates for a key: absent, not
a DataFrame, an empty DataFrame, or a DataFrame none of whose dates parse. -/
def DegeneratePayload (v : Option CacheValue) : Prop :=
  v = none ∨ v = some CacheValue.notFrame ∨
    (∃ f, v = some (CacheValue.frame f) ∧ f.isEmpty = true) ∨
    (∃ f, v = some (CacheValue.frame f) ∧ maxObservedDate f = none)

/-- The totality claim as stated: on every degenerate payload, `IsUpToDate`
returns false and `Load` returns absent. -/
def TotalityClaim : Prop :=
  ∀ (store : Store) (key : String) (latest : ℤ),
    DegeneratePayload (store key) →
    is_data_up_to_date store key latest = false ∧
      load_cached_data store key = none

/-- The round-trip claim as stated: for every key and every entry, saving then
loading yields a present value with the same newest observation date. -/
def SaveLoadRoundTripClaim : Prop :=
  ∀ (store : Store) (key : String) (f : Frame),
    ∃ g, load_cached_data (save_to_cache store key f) key = some g ∧
      maxObservedDate g = maxObservedDate f

/-- A nonempty cached DataFrame whose newest parseable date is day 5. -/
def sampleFrame : Frame :=
  { dateCol := some [some 5, none], index := [], isEmpty := false }

/-- A nonempty cached DataFrame with no date column and an all-`NaT` index:
present in the cache, but without any parseable date. -/
def noDatesFrame : Frame :=
  { dateCol := none, index := [none], isEmpty := false }

/-- An empty cached DataFrame. -/
def emptyFrame : Frame :=
  { dateCol := none, index := [], isEmpty := true }

/-- A store holding `sampleFrame` under every key. -/
def sampleStore : Store := fun _ => some (CacheValue.frame sampleFrame)

/-- A store holding `noDatesFrame` under every key. -/
def noDatesStore : Store := fun _ => some (CacheValue.frame noDatesFrame)

/-- The empty store. -/
def emptyStore : Store := fun _ => none

/-! ## Theorems -/

/-! ### Cache freshness and store operations (C2, C3, C8, C9) -/

/-- C2: for a key whose stored entry is present with a parseable newest date
`d`, `is_data_up_to_date` returns true exactly when `d` is at least the
latest trading day at the check time, and false when it is strictly less. -/
theorem is_data_up_to_date_iff_fresh (store : Store) (key : String)
    (latest : ℤ) (f : Frame) (hf : load_cached_data store key = some f)
    (d : ℤ) (hd : maxObservedDate f = some d) :
    is_data_up_to_date store key latest = true ↔ latest ≤ d := by
  simp only [is_data_up_to_date, hf, hd]
  by_cases h : d < latest
  · simp [h]
  · simp [h]
    omega

/-- Witness for C2: a concrete fresh entry (newest date 5, latest trading
day 4) is reported up to date. -/
theorem is_data_up_to_date_iff_fresh_witness :
    is_data_up_to_date sampleStore "AAPL_TIME_SERIES_DAILY" 4 = true ↔
      (4 : ℤ) ≤ 5 :=
  is_data_up_to_date_iff_fresh sampleStore "AAPL_TIME_SERIES_DAILY" 4
    sampleFrame rfl 5 rfl

/-- C3 counterexample: the claim as stated is false, because a nonempty cached
DataFrame with no parseable dates makes `is_data_up_to_date` false but is
still returned (present) by `load_cached_data`. -/
theorem totality_claim_false : ¬ TotalityClaim := by
  intro h
  have h2 := (h noDatesStore "k" 0
    (Or.inr (Or.inr (Or.inr ⟨noDatesFrame, rfl, rfl⟩)))).2
  have h3 : load_cached_data noDatesStore "k" = some noDatesFrame := rfl
  rw [h3] at h2
  exact Option.noConfusion h2

/-- C3 amended: on every degenerate payload `is_data_up_to_date` returns
false (it never raises: the Python body is wrapped in `try/except` returning
`False`), and `load_cached_data` returns absent when the payload is absent,
not a DataFrame, or an empty DataFrame — but a nonempty DataFrame with no
parseable dates is loaded as present. -/
theorem up_to_date_degenerate_false (store : Store) (key : String)
    (latest : ℤ) (h : DegeneratePayload (store key)) :
    is_data_up_to_date store key latest = false ∧
      ((store key = none ∨ store key = some CacheValue.notFrame ∨
          (∃ f, store key = some (CacheValue.frame f) ∧ f.isEmpty = true)) →
        load_cached_data store key = none) := by
  constructor
  · rcases h with h | h | ⟨f, hf, he⟩ | ⟨f, hf, hm⟩
    · simp [is_data_up_to_date, load_cached_data, h]
    · simp [is_data_up_to_date, load_cached_data, h]
    · simp [is_data_up_to_date, load_cached_data, hf, he]
    · simp only [is_data_up_to_date, load_cached_data, hf]
      rcases he : f.isEmpty with he | he
      · simp [he, hm]
      · simp [he]
  · rintro (h2 | h2 | ⟨f, hf, he⟩)
    · simp [load_cached_data, h2]
    · simp [load_cached_data, h2]
    · simp [load_cached_data, hf, he]

/-- Witness for C3 (amended): evaluated on the all-`NaT` store. -/
theorem up_to_date_degenerate_false_witness :
    is_data_up_to_date noDatesStore "k" 0 = false ∧
      ((noDatesStore "k" = none ∨
          noDatesStore "k" = some CacheValue.notFrame ∨
          (∃ f, noDatesStore "k" = some (CacheValue.frame f) ∧
            f.isEmpty = true)) →
        load_cached_data noDatesStore "k" = none) :=
  up_to_date_degenerate_false noDatesStore "k" 0
    (Or.inr (Or.inr (Or.inr ⟨noDatesFrame, rfl, rfl⟩)))

/-- C8 counterexample: the round-trip claim as stated is false, because
saving an empty DataFrame and loading it back yields absent, not a present
value. -/
theorem save_load_round_trip_claim_false : ¬ SaveLoadRoundTripClaim := by
  intro h
  obtain ⟨g, hg, -⟩ := h emptyStore "k" emptyFrame
  have h2 : load_cached_data (save_to_cache emptyStore "k" emptyFrame) "k" =
      none := by
    simp [load_cached_data, save_to_cache, emptyFrame]
  rw [h2] at hg
  exact Option.noConfusion hg

/-- C8 amended: for every entry that is a nonempty DataFrame, `Save` then
`Load` returns a present value with the same newest observation date. -/
theorem save_then_load_nonempty (store : Store) (key : String) (f : Frame)
    (h : f.isEmpty = false) :
    ∃ g, load_cached_data (save_to_cache store key f) key = some g ∧
      maxObservedDate g = maxObservedDate f := by
  refine ⟨f, ?_, rfl⟩
  simp [load_cached_data, save_to_cache, h]

/-- Witness for C8 (amended): saving the concrete nonempty frame and loading
it back. -/
theorem save_then_load_nonempty_witness :
    ∃ g, load_cached_data (save_to_cache emptyStore "k" sampleFrame) "k" =
        some g ∧ maxObservedDate g = maxObservedDate sampleFrame :=
  save_then_load_nonempty emptyStore "k" sampleFrame rfl

/-- C9: saving under key `k` leaves every other key `k2` untouched — both
`load_cached_data` and `is_data_up_to_date` give the same results on `k2`
before and after the save. -/
theorem save_frame_other_keys (store : Store) (k k2 : String) (f : Frame)
    (h : k2 ≠ k) :
    load_cached_data (save_to_cache store k f) k2 =
        load_cached_data store k2 ∧
      ∀ latest : ℤ, is_data_up_to_date (save_to_cache store k f) k2 latest =
        is_data_up_to_date store k2 latest := by
  have hs : save_to_cache store k f k2 = store k2 := by
    simp [save_to_cache, h]
  have hload : load_cached_data (save_to_cache store k f) k2 =
      load_cached_data store k2 := by
    simp only [load_cached_data, hs]
  exact ⟨hload, fun latest => by simp only [is_data_up_to_date, hload]⟩

/-- Witness for C9: evaluated at the two distinct keys "a" and "b". -/
theorem save_frame_other_keys_witness :
    load_cached_data (save_to_cache sampleStore "a" emptyFrame) "b" =
        load_cached_data sampleStore "b" ∧
      ∀ latest : ℤ,
        is_data_up_to_date (save_to_cache sampleStore "a" emptyFrame) "b"
            latest =
          is_data_up_to_date sampleStore "b" latest :=
  save_frame_other_keys sampleStore "a" "b" emptyFrame (by decide)

/-! ### Latest trading day (C6, C7, C10) -/

/-- Whenever the rollback loop exits, its result is no later than its start,
keeps the start's time-of-day, and fails the loop guard. -/
theorem rollback_some_spec (hs : List ℤ) :
    ∀ (fuel : ℕ) (dt r : PyDateTime), rollback hs fuel dt = some r →
      r.day ≤ dt.day ∧ r.tod = dt.tod ∧ tradingGuard hs r = false := by
  intro fuel
  induction fuel with
  | zero => intro dt r h; exact Option.noConfusion h
  | succ n ih =>
    intro dt r h
    simp only [rollback] at h
    cases hg : tradingGuard hs dt with
    | false =>
      rw [hg] at h
      simp only [Bool.false_eq_true, if_false, Option.some.injEq] at h
      rw [← h]
      exact ⟨le_refl _, rfl, hg⟩
    | true =>
      rw [hg] at h
      simp only [if_true] at h
      obtain ⟨h1, h2, h3⟩ := ih _ _ h
      refine ⟨?_, h2, h3⟩
      simp only at h1
      omega

/-- A guard-failing result has a weekday before Saturday. -/
theorem guard_false_weekday {hs : List ℤ} {r : PyDateTime}
    (h : tradingGuard hs r = false) : weekday r.day < 5 := by
  simp only [tradingGuard, Bool.or_eq_false_iff, decide_eq_false_iff_not] at h
  omega

/-- C7: whenever `get_latest_trading_day` returns, its result is never a
Saturday or Sunday; and when `asOf` itself falls on a weekend, the result is
at most the preceding Friday (the pre-adjusted candidate
`asOf - (weekday asOf - 4)`, which is indeed a Friday). -/
theorem latest_trading_day_never_weekend (hs : List ℤ) (today : PyDateTime)
    (fuel : ℕ) (r : PyDateTime)
    (hr : get_latest_trading_day hs today fuel = some r) :
    weekday r.day < 5 ∧
      (5 ≤ weekday today.day →
        r.day ≤ today.day - (weekday today.day - 4) ∧
        weekday (today.day - (weekday today.day - 4)) = 4) := by
  simp only [get_latest_trading_day] at hr
  by_cases hw : weekday today.day < 5
  · rw [if_pos hw] at hr
    exact ⟨guard_false_weekday (rollback_some_spec hs fuel _ r hr).2.2,
      fun h5 => absurd h5 (not_le.mpr hw)⟩
  · rw [if_neg hw] at hr
    have hspec := rollback_some_spec hs fuel _ r hr
    refine ⟨guard_false_weekday hspec.2.2, fun _ => ⟨?_, ?_⟩⟩
    · have h1 := hspec.1
      simpa using h1
    · unfold weekday at hw ⊢
      omega

/-- Witness for C7: Saturday 2024-07-06 (day 19910) with no holidays rolls
back to Friday 2024-07-05 (day 19909). -/
theorem latest_trading_day_never_weekend_witness :
    weekday (19909 : ℤ) < 5 ∧
      (5 ≤ weekday 19910 →
        (19909 : ℤ) ≤ 19910 - (weekday 19910 - 4) ∧
        weekday ((19910 : ℤ) - (weekday 19910 - 4)) = 4) :=
  latest_trading_day_never_weekend [] ⟨19910, 0⟩ 3 ⟨19909, 0⟩ (by decide)

/-- `foldr min` is bounded by its initial value. -/
theorem foldr_min_le_init (hs : List ℤ) (d : ℤ) : hs.foldr min d ≤ d := by
  induction hs with
  | nil => exact le_refl d
  | cons x xs ih => exact le_trans (min_le_right x _) ih

/-- `foldr min` is bounded by every list element. -/
theorem foldr_min_le_mem (hs : List ℤ) (d : ℤ) :
    ∀ x ∈ hs, hs.foldr min d ≤ x := by
  induction hs with
  | nil => intro x hx; cases hx
  | cons y ys ih =>
    intro x hx
    rcases List.mem_cons.mp hx with h | h
    · rw [h]; exact min_le_left _ _
    · exact le_trans (min_le_right _ _) (ih x h)

/-- Below the minimum of the (finite) holiday list, some day within any three
consecutive days fails the loop guard: it is not a holiday and not every run
of three days is all weekend. -/
theorem exists_good_day (hs : List ℤ) (tod : ℕ) (d : ℤ) :
    ∃ e, e ≤ d ∧ tradingGuard hs ⟨e, tod⟩ = false := by
  have hLd : hs.foldr min d ≤ d := foldr_min_le_init hs d
  have hmem : ∀ i : ℤ, 0 < i → ¬ (hs.foldr min d - i) ∈ hs := by
    intro i hi hmemi
    have := foldr_min_le_mem hs d _ hmemi
    omega
  have hguard : ∀ i : ℤ, 0 < i → weekday (hs.foldr min d - i) < 5 →
      tradingGuard hs ⟨hs.foldr min d - i, tod⟩ = false := by
    intro i hi hwk
    have h1 : decide ((hs.foldr min d - i) ∈ hs) = false :=
      decide_eq_false (hmem i hi)
    have h2 : decide (5 ≤ weekday (hs.foldr min d - i)) = false :=
      decide_eq_false (by omega)
    simp [tradingGuard, inHolidays, h1, h2]
  by_cases h1 : weekday (hs.foldr min d - 1) < 5
  · exact ⟨hs.foldr min d - 1, by omega, hguard 1 one_pos h1⟩
  by_cases h2 : weekday (hs.foldr min d - 2) < 5
  · exact ⟨hs.foldr min d - 2, by omega, hguard 2 (by omega) h2⟩
  have h3 : weekday (hs.foldr min d - 3) < 5 := by
    unfold weekday at h1 h2 ⊢
    omega
  exact ⟨hs.foldr min d - 3, by omega, hguard 3 (by omega) h3⟩

/-- With any guard-failing day `e` at or below the start and fuel exceeding
the distance down to `e`, the rollback loop exits. -/
theorem rollback_reaches (hs : List ℤ) (tod : ℕ) :
    ∀ (fuel : ℕ) (d e : ℤ), e ≤ d → tradingGuard hs ⟨e, tod⟩ = false →
      (d - e).toNat < fuel →
      ∃ r, rollback hs fuel ⟨d, tod⟩ = some r := by
  intro fuel
  induction fuel with
  | zero => intro d e h1 h2 h3; omega
  | succ n ih =>
    intro d e h1 h2 h3
    cases hg : tradingGuard hs ⟨d, tod⟩ with
    | false => exact ⟨⟨d, tod⟩, by simp [rollback, hg]⟩
    | true =>
      have hne : e ≠ d := by
        intro he
        rw [he, hg] at h2
        exact Bool.noConfusion h2
      obtain ⟨r, hr⟩ := ih (d - 1) e (by omega) h2 (by omega)
      refine ⟨r, ?_⟩
      simp only [rollback, hg, if_true]
      exact hr

/-- C10: the candidate-decrementing loop of `get_latest_trading_day` always
exits: for every holiday list and every start `datetime`, some finite fuel
makes the embedded loop return a result. -/
theorem get_latest_trading_day_terminates (hs : List ℤ)
    (today : PyDateTime) :
    ∃ fuel r, get_latest_trading_day hs today fuel = some r := by
  simp only [get_latest_trading_day]
  set potential : PyDateTime :=
    if weekday today.day < 5 then today
    else ⟨today.day - (weekday today.day - 4), today.tod⟩ with hp
  obtain ⟨e, he, hg⟩ := exists_good_day hs potential.tod potential.day
  obtain ⟨r, hr⟩ :=
    rollback_reaches hs potential.tod ((potential.day - e).toNat + 1)
      potential.day e he hg (by omega)
  exact ⟨(potential.day - e).toNat + 1, r, hr⟩

/-- C6: code evaluation at the failing input. With the 2024-07-04 US holiday
(day 19908) in the holiday set and `datetime.today()` equal to noon of that
same Thursday, `get_latest_trading_day` returns July 4th itself — a member of
the holiday set — because the candidate keeps its time-of-day, so the
membership test against the midnight holiday timestamps never fires. Called
exactly at midnight, the same query correctly rolls back to July 3rd. -/
theorem latest_trading_day_holiday_eval :
    get_latest_trading_day [daysFromCivil 2024 7 4]
        ⟨daysFromCivil 2024 7 4, 43200000000⟩ 10 =
      some ⟨daysFromCivil 2024 7 4, 43200000000⟩ ∧
    daysFromCivil 2024 7 4 ∈ [daysFromCivil 2024 7 4] ∧
    get_latest_trading_day [daysFromCivil 2024 7 4]
        ⟨daysFromCivil 2024 7 4, 0⟩ 10 =
      some ⟨daysFromCivil 2024 7 3, 0⟩ := by decide

/-! ### Holiday rules (C5) and limiter misconfiguration (C4) -/

/-- C5: code evaluation at the failing year 2023. The code's Thanksgiving
rule (`offset=DateOffset(weekday=3)` from November 1) resolves to 2023-11-02,
the first Thursday of November — not the fourth Thursday 2023-11-23 — and the
"Day after Thanksgiving" observance resolves to the independently computed
fourth Friday 2023-11-24, which is not the day after the resolved
Thanksgiving date. -/
theorem thanksgiving_rules_eval_2023 :
    thanksgivingRule 2023 = daysFromCivil 2023 11 2 ∧
    thanksgivingRule 2023 ≠ fourthThursdayNovember 2023 ∧
    fourthThursdayNovember 2023 = daysFromCivil 2023 11 23 ∧
    fourth_friday_november 2023 = daysFromCivil 2023 11 24 ∧
    fourth_friday_november 2023 ≠ thanksgivingRule 2023 + 1 := by decide

/-- C4: code evaluation at the failing configuration. `rate_limited(0)` runs
no validation (the decorator is created with the empty timestamp list), and
the very first wrapped call faults: with the maximum at 0, the empty pruned
list already satisfies `len(call_timestamps) >= 0`, so the wait branch reads
`call_timestamps[0]` from an empty list and raises `IndexError` (`none`
here) instead of failing at construction time. -/
theorem first_acquire_zero_rate_faults (now : ℤ) :
    acquire 0 initial_call_timestamps now = none := rfl

/-! ### Rate limiter safety (C1) -/

/-- Membership in the pruned list: the element was recorded and is younger
than one interval. -/
theorem mem_prune {ts : List ℤ} {now x : ℤ} (h : x ∈ prune ts now) :
    x ∈ ts ∧ now - x < interval := by
  have h2 := List.mem_filter.mp h
  exact ⟨h2.1, of_decide_eq_true h2.2⟩

/-- The window count never exceeds the number of recorded timestamps. -/
theorem windowCount_le_length (ts : List ℤ) (t : ℤ) :
    windowCount ts t ≤ ts.length :=
  List.length_filter_le _ ts

/-- Appending an upper bound keeps a list sorted. -/
theorem sorted_append_singleton {l : List ℤ} {a : ℤ}
    (h : l.Sorted (· ≤ ·)) (ha : ∀ x ∈ l, x ≤ a) :
    (l ++ [a]).Sorted (· ≤ ·) :=
  List.pairwise_append.mpr ⟨h, List.pairwise_singleton _ _,
    fun x hx b hb => by rw [List.mem_singleton.mp hb]; exact ha x hx⟩

/-- C1: with `max_calls_per_minute ≥ 1`, every `Acquire()` step (prune,
optional wait, record) succeeds and preserves the limiter invariant: the
recorded list stays sorted, never runs ahead of the clock, and keeps at most
`maxCalls` entries — hence at every instant the number of recorded
timestamps inside the trailing 60-second window is at most `maxCalls`. -/
theorem acquire_preserves_rate_limit (maxCalls : ℕ) (ts : List ℤ) (now : ℤ)
    (hmax : 1 ≤ maxCalls) (hinv : RLInv maxCalls ts now) :
    ∃ r, acquire maxCalls ts now = some r ∧ now ≤ r.now ∧
      RLInv maxCalls r.ts r.now ∧
      ∀ t : ℤ, windowCount r.ts t ≤ maxCalls := by
  obtain ⟨hsort, hle, hlen⟩ := hinv
  have hps : (prune ts now).Sorted (· ≤ ·) := hsort.filter _
  have hplen : (prune ts now).length ≤ maxCalls :=
    le_trans (List.length_filter_le _ ts) hlen
  have hple : ∀ x ∈ prune ts now, x ≤ now := fun x hx => hle x (mem_prune hx).1
  by_cases hcase : maxCalls ≤ (prune ts now).length
  · rcases h1 : prune ts now with _ | ⟨t0, rest⟩
    · rw [h1] at hcase
      simp only [List.length_nil, Nat.le_zero] at hcase
      omega
    · rw [h1] at hps hplen hple hcase
      have ht0mem : t0 ∈ prune ts now := by
        rw [h1]; exact List.mem_cons_self t0 rest
      have ht0now : now - t0 < interval := (mem_prune ht0mem).2
      have heq : acquire maxCalls ts now =
          some ⟨prune (t0 :: rest) (now + (interval - (now - t0))) ++
              [now + (interval - (now - t0))],
            now + (interval - (now - t0))⟩ := by
        simp only [acquire, h1]
        rw [if_pos hcase]
      have hrw : now + (interval - (now - t0)) = t0 + interval := by ring
      rw [hrw] at heq
      have hp2sort : (prune (t0 :: rest) (t0 + interval)).Sorted (· ≤ ·) :=
        hps.filter _
      have hp2le : ∀ x ∈ prune (t0 :: rest) (t0 + interval),
          x ≤ t0 + interval := by
        intro x hx
        have hxn := hple x (mem_prune hx).1
        linarith
      have hlen2 : (prune (t0 :: rest) (t0 + interval)).length ≤
          rest.length := by
        have hfalse : decide (t0 + interval - t0 < interval) = false :=
          decide_eq_false (by intro hcon; linarith)
        simp only [prune, List.filter_cons, hfalse, Bool.false_eq_true,
          if_false]
        exact List.length_filter_le _ rest
      have hrlen : (prune (t0 :: rest) (t0 + interval) ++
          [t0 + interval]).length ≤ maxCalls := by
        rw [List.length_append, List.length_singleton]
        have h5 : rest.length + 1 ≤ maxCalls := by
          simpa using hplen
        omega
      refine ⟨_, heq, ?_, ⟨?_, ?_, ?_⟩, ?_⟩
      · show now ≤ t0 + interval
        linarith
      · exact sorted_append_singleton hp2sort hp2le
      · intro x hx
        rcases List.mem_append.mp hx with hx2 | hx2
        · exact hp2le x hx2
        · rw [List.mem_singleton.mp hx2]
      · exact hrlen
      · exact fun t => le_trans (windowCount_le_length _ t) hrlen
  · have heq : acquire maxCalls ts now =
        some ⟨prune ts now ++ [now], now⟩ := by
      simp only [acquire]
      rw [if_neg hcase]
    have hrlen : (prune ts now ++ [now]).length ≤ maxCalls := by
      rw [List.length_append, List.length_singleton]
      omega
    refine ⟨_, heq, le_refl now, ⟨sorted_append_singleton hps hple, ?_,
      hrlen⟩, fun t => le_trans (windowCount_le_length _ t) hrlen⟩
    intro x hx
    rcases List.mem_append.mp hx with hx2 | hx2
    · exact hple x hx2
    · rw [List.mem_singleton.mp hx2]

/-- Witness for C1: the first call on a fresh limiter with maximum 1. -/
theorem acquire_preserves_rate_limit_witness :
    ∃ r, acquire 1 initial_call_timestamps 0 = some r ∧ (0 : ℤ) ≤ r.now ∧
      RLInv 1 r.ts r.now ∧ ∀ t : ℤ, windowCount r.ts t ≤ 1 :=
  acquire_preserves_rate_limit 1 initial_call_timestamps 0 (by decide)
    ⟨List.sorted_nil, by simp [initial_call_timestamps],
      by simp [initial_call_timestamps]⟩

end PortfolioTracker
